import Mathlib

/-!
Verification of the statistics store, report formatter, treemap layout and
navigation controller of `www/src/Lib/profile.py` (Brython profiling module).

Embedding conventions:
* Python `dict`s are insertion-ordered association lists `Dict α`
  (`d[k] = v` updates the value in place when the key is present and appends
  a new entry otherwise; iteration follows list order, as in CPython).
* Python numbers (int and float, here millisecond times and call counts) are
  embedded as `ℚ`; `/` is true division guarded by `pyDiv`
  (ZeroDivisionError).
* Fallible code returns `Except PyErr`; stateful merge code threads an
  explicit two-object store (see `St` below) so that frame effects on the
  merge source are expressible.
-/

namespace BrythonProfile

/-- Python exception classes that the embedded code can raise. -/
inductive PyErr
  | keyError
  | typeError
  | attributeError
  | nameError
  | zeroDivisionError
deriving DecidableEq

/-- A Python dict with `String` keys: an insertion-ordered association list. -/
abbrev Dict (α : Type) : Type := List (String × α)

/-- First-match lookup (Python dicts have unique keys, so this is `d.get(k)`). -/
def dictLookup : Dict α → String → Option α
  | [], _ => none
  | (k, v) :: rest, key => if k = key then some v else dictLookup rest key

/-- `key in d` for a Python dict. -/
def dictContains (d : Dict α) (k : String) : Bool :=
  (dictLookup d k).isSome

/-- `d[k]` as an expression: raises `KeyError` when the key is absent. -/
def dictGet (d : Dict α) (k : String) : Except PyErr α :=
  match dictLookup d k with
  | some v => .ok v
  | none => .error .keyError

/-- `d[k] = v`: update in place when present (keeping the entry's position,
as CPython does), append otherwise. -/
def dictSet (d : Dict α) (k : String) (v : α) : Dict α :=
  if dictContains d k then
    d.map (fun p => if p.1 = k then (k, v) else p)
  else
    d ++ [(k, v)]

/-- `d.keys()` in iteration order. -/
def dictKeys (d : Dict α) : List String :=
  d.map Prod.fst

/-- `d.values()` in iteration order. -/
def dictVals (d : Dict α) : List α :=
  d.map Prod.snd

/-- Python `/` on numbers: true division, `ZeroDivisionError` on a zero
denominator. -/
def pyDiv (a b : ℚ) : Except PyErr ℚ :=
  if b = 0 then .error .zeroDivisionError else .ok (a / b)

/-- Python `sum(d)` over a string-keyed dict iterates the KEYS, so with the
default start value `0` the first addition is `0 + <str>` and raises
`TypeError`; only the empty dict sums to `0`.  (`Stats.method_profile` calls
`sum(self.function_totals)` etc. — on the dict itself, not on `.values()`.) -/
def pySumKeys (d : Dict ℚ) : Except PyErr ℚ :=
  match d with
  | [] => .ok 0
  | _ :: _ => .error .typeError

/-- A list comprehension whose element expression can raise: stops at the
first exception. -/
def exMap (f : α → Except PyErr β) : List α → Except PyErr (List β)
  | [] => .ok []
  | a :: rest =>
    match f a with
    | .error e => .error e
    | .ok b =>
      match exMap f rest with
      | .error e => .error e
      | .ok bs => .ok (b :: bs)

/-- `list(set(l))` — removes duplicates.  CPython's `set` iteration order is
hash-determined; the claims about `sub_calls` are set-valued, so we fix the
canonical `List.dedup` representative. -/
def pySet (l : List String) : List String :=
  l.dedup

/-- `s.add(x)` on a Python `set` modelled as a duplicate-free list. -/
def setAdd (l : List String) (x : String) : List String :=
  if x ∈ l then l else l ++ [x]

/-- One caller-edge record `{'cumulated':..,'total':..,'count':..,'count_norec':..}`
(the per-(function, call-chain) data stored in `Stats.callers`). -/
structure EdgeVals where
  cumulated : ℚ
  total : ℚ
  count : ℚ
  count_norec : ℚ
deriving DecidableEq

/-- The zero edge created by `_add_stat` / `method_profile_by_callchain`. -/
def zeroEdge : EdgeVals := ⟨0, 0, 0, 0⟩

/-- `{k: a[k] + b[k] for k in ['cumulated','total','count','count_norec']}`. -/
def addEdgeVals (a b : EdgeVals) : EdgeVals :=
  ⟨a.cumulated + b.cumulated, a.total + b.total,
   a.count + b.count, a.count_norec + b.count_norec⟩

/-- The data attributes of a `Stats` instance (`profile.py`, `Stats.__init__`):
the four function-keyed maps, the caller adjacency, run metadata, the derived
top-level-location set, and the sort cache (`_ordering`, `_reverse_order`,
`_sk`). -/
structure Stats where
  nruns : ℚ
  duration : ℚ
  line_counts : Dict ℚ
  function_totals : Dict ℚ
  function_cumulated_totals : Dict ℚ
  function_counts : Dict ℚ
  function_counts_nonrec : Dict ℚ
  callers : Dict (Dict EdgeVals)
  top_level_call_locations : List String
  ordering : String
  reverse_order : Bool
  sk : Option (List String)
deriving DecidableEq

/-- `Stats.is_toplevel`: a call chain is top-level iff it ends with `':'`. -/
def Stats.is_toplevel (call_chain : String) : Bool :=
  call_chain.endsWith ":"

/-- Inner loop of `Stats._update_top_level_call_locations`: add every
top-level chain key of one caller dict to the set. -/
def updateTopLocsD : List String → List (String × EdgeVals) → List String
  | locs, [] => locs
  | locs, (cc, _) :: rest =>
    updateTopLocsD (if Stats.is_toplevel cc then setAdd locs cc else locs) rest

/-- `Stats._update_top_level_call_locations(caller_data)` over a list of
caller dicts (as `from_json` passes `self.callers.values()`). -/
def updateTopLocs : List String → List (Dict EdgeVals) → List String
  | locs, [] => locs
  | locs, d :: rest => updateTopLocs (updateTopLocsD locs d) rest

/-- The result shape of `Stats.method_profile`:
`{'total':..,'cumulated':..,'counts':..,'counts_nonrec':..}`. -/
structure ProfileData where
  total : ℚ
  cumulated : ℚ
  counts : ℚ
  counts_nonrec : ℚ
deriving DecidableEq

/-- `Stats.method_profile_by_callchain(method_name)`: read
`self.callers[method_name]` (KeyError when unknown) and re-accumulate its
entries chain by chain — each chain starts from a zero record, then
`_update_with_data` adds all four fields (the two dicts share all keys). -/
def mpbcFold : List (String × EdgeVals) → Dict EdgeVals → Dict EdgeVals
  | [], acc => acc
  | (cc, d) :: rest, acc =>
    mpbcFold rest (dictSet acc cc (addEdgeVals ((dictLookup acc cc).getD zeroEdge) d))

def Stats.method_profile_by_callchain (s : Stats) (method_name : String) :
    Except PyErr (Dict EdgeVals) := do
  let c_data ← dictGet s.callers method_name
  .ok (mpbcFold c_data [])

/-- `Stats.method_profile(method_name, restrict_to_callchain)`.

* `method_name = none` (the top-level pseudo-entity): the code computes
  `self.duration - sum(self.function_totals)` etc.  `sum` over a dict sums
  its string keys, so it raises `TypeError` whenever a map is non-empty
  (`pySumKeys`).
* known function, no chain: the four map entries verbatim (KeyError when
  unknown).
* with a chain: start from an all-zero result and `_update_with_data` it with
  the chain's accumulated edge.  The edge dict's keys are
  `count`/`count_norec` while the result uses `counts`/`counts_nonrec`, so
  only `total` and `cumulated` are actually added — the two count fields of
  the result always stay `0`. -/
def Stats.method_profile (s : Stats) (method_name : Option String)
    (restrict_to_callchain : Option String) : Except PyErr ProfileData :=
  match method_name with
  | none => do
    let t ← pySumKeys s.function_totals
    let c ← pySumKeys s.function_counts
    let cn ← pySumKeys s.function_counts_nonrec
    .ok { total := s.duration - t, cumulated := s.duration, counts := c, counts_nonrec := cn }
  | some name =>
    match restrict_to_callchain with
    | none => do
      let t ← dictGet s.function_totals name
      let cu ← dictGet s.function_cumulated_totals name
      let c ← dictGet s.function_counts name
      let cn ← dictGet s.function_counts_nonrec name
      .ok { total := t, cumulated := cu, counts := c, counts_nonrec := cn }
    | some chain => do
      let pbc ← s.method_profile_by_callchain name
      match dictLookup pbc chain with
      | none => .ok { total := 0, cumulated := 0, counts := 0, counts_nonrec := 0 }
      | some e => .ok { total := e.total, cumulated := e.cumulated, counts := 0, counts_nonrec := 0 }

/-- `Stats.profiled_methods()`: `self.function_totals.keys()`. -/
def Stats.profiled_methods (s : Stats) : List String :=
  dictKeys s.function_totals

/-- Chain-given branch of `sub_calls`: append every profiled function whose
caller dict (`self.callers[func]`, KeyError when missing) contains the chain. -/
def subCallsChain (callers : Dict (Dict EdgeVals)) (chain : String) :
    List String → Except PyErr (List String)
  | [] => .ok []
  | f :: rest => do
    let d ← dictGet callers f
    let tail ← subCallsChain callers chain rest
    if dictContains d chain then .ok (f :: tail) else .ok tail

/-- `Stats.sub_calls(call_chain)`.

With `call_chain = None` the loop body reads `self.callers[f]` for the first
profiled function (KeyError when missing) and then iterates
`self._top_level_callers` — an attribute that is never assigned anywhere in
the class (`__init__` defines `_top_level_call_locations`), so the first
iteration raises `AttributeError`; only an empty snapshot returns `[]`.
With a chain the result is `list(set(...))` of the matching functions. -/
def Stats.sub_calls (s : Stats) (call_chain : Option String) :
    Except PyErr (List String) :=
  match call_chain with
  | none =>
    match dictKeys s.function_totals with
    | [] => .ok []
    | f :: _ => do
      let _ ← dictGet s.callers f
      .error .attributeError
  | some c => do
    let ret ← subCallsChain s.callers c (dictKeys s.function_totals)
    .ok (pySet ret)

/-- `Stats.sub_calls_profile(call_chain)`: for every function in
`sub_calls(call_chain)` the code calls
`self.method_profile(f, restrict_to_calls_from=call_chain)`, but
`method_profile`'s only keyword parameter is `restrict_to_callchain`, so the
call raises `TypeError` on the first iteration; only an empty `sub_calls`
result returns the empty dict. -/
def Stats.sub_calls_profile (s : Stats) (call_chain : Option String) :
    Except PyErr (Dict ProfileData) := do
  let fs ← s.sub_calls call_chain
  match fs with
  | [] => .ok []
  | _ :: _ => .error .typeError

/-! ## Serialization (`Stats.__json__` / `Stats.from_json`)

`__json__` passes a dict of the eight data fields to `json.dumps`; these are
string-keyed maps of finite numbers, which `json.dumps`/`json.loads`
round-trip losslessly (object key order included), so the serialized form is
embedded as the record `StatsJson`. -/

/-- The serialized snapshot schema produced by `Stats.__json__`. -/
structure StatsJson where
  nruns : ℚ
  line_counts : Dict ℚ
  duration : ℚ
  function_counts : Dict ℚ
  function_counts_nonrec : Dict ℚ
  function_cumulated_totals : Dict ℚ
  function_totals : Dict ℚ
  callers : Dict (Dict EdgeVals)
deriving DecidableEq

/-- `Stats.__json__`. -/
def Stats.toJson (s : Stats) : StatsJson :=
  { nruns := s.nruns
    line_counts := s.line_counts
    duration := s.duration
    function_counts := s.function_counts
    function_counts_nonrec := s.function_counts_nonrec
    function_cumulated_totals := s.function_cumulated_totals
    function_totals := s.function_totals
    callers := s.callers }

/-- `Stats(json_text)`: `__init__` initializes `_ordering = "standard name"`,
`_reverse_order = False`, `_sk = None` and an empty top-level-location set,
then `from_json` restores the eight serialized fields and recomputes the
top-level-location set from `self.callers.values()`. -/
def Stats.ofJson (j : StatsJson) : Stats :=
  { nruns := j.nruns
    duration := j.duration
    line_counts := j.line_counts
    function_totals := j.function_totals
    function_cumulated_totals := j.function_cumulated_totals
    function_counts := j.function_counts
    function_counts_nonrec := j.function_counts_nonrec
    callers := j.callers
    top_level_call_locations := updateTopLocs [] (dictVals j.callers)
    ordering := "standard name"
    reverse_order := false
    sk := none }

/-! ## Sorting (`Stats.sort` / `Stats._sorted_keys`) -/

/-- One element of the `percall` / `var percall` key list:
`(k, num[k] / den[k])` — both plain `d[k]` lookups (KeyError when missing),
and Python `/` (ZeroDivisionError on a zero denominator). -/
def percallEntry (num den : Dict ℚ) (k : String) : Except PyErr (String × ℚ) :=
  match dictGet num k with
  | .error e => .error e
  | .ok t =>
    match dictGet den k with
    | .error e => .error e
    | .ok c =>
      match pyDiv t c with
      | .error e => .error e
      | .ok q => .ok (k, q)

/-- The `keys` list built by `_sorted_keys` for the numeric orderings.  When
`self._ordering` matches none of the six documented keys, the local variable
`keys` is never assigned and the final `sorted(keys, ...)` raises
`NameError`. -/
def Stats.sortKeySource (s : Stats) : Except PyErr (Dict ℚ) :=
  if s.ordering = "ncalls" then .ok s.function_counts
  else if s.ordering = "tottime" then .ok s.function_totals
  else if s.ordering = "percall" then
    exMap (percallEntry s.function_totals s.function_counts) (dictKeys s.function_counts)
  else if s.ordering = "cumtime" then .ok s.function_cumulated_totals
  else if s.ordering = "var percall" then
    exMap (percallEntry s.function_cumulated_totals s.function_counts_nonrec)
      (dictKeys s.function_counts_nonrec)
  else .error .nameError

/-- `sorted(keys, key=lambda x: x[1], reverse=pyrev)`: CPython's stable sort by
the second component, descending when `pyrev` (embedded as a stable insertion
sort with a non-strict comparator, which produces the same list as any stable
sort). -/
def sortPairs (pyrev : Bool) (l : Dict ℚ) : Dict ℚ :=
  if pyrev then List.insertionSort (fun a b => b.2 ≤ a.2) l
  else List.insertionSort (fun a b => a.2 ≤ b.2) l

/-- `Stats._sorted_keys`: `"standard name"` returns
`sorted(self.function_totals.keys())` (plain ascending lexicographic sort,
never consulting `_reverse_order`); every other ordering sorts its key list
by value with `reverse=not self._reverse_order` and projects the keys. -/
def Stats.sorted_keys (s : Stats) : Except PyErr (List String) :=
  if s.ordering = "standard name" then
    .ok (List.insertionSort (fun a b : String => a ≤ b) (dictKeys s.function_totals))
  else
    match s.sortKeySource with
    | .error e => .error e
    | .ok keys => .ok (dictKeys (sortPairs (!s.reverse_order) keys))

/-- `Stats.sort(key)`: set `self._ordering = key`, then cache
`self._sk = self._sorted_keys()` (an exception propagates and leaves `_sk`
untouched). -/
def Stats.sort (s : Stats) (key : String) : Stats × Option PyErr :=
  match Stats.sorted_keys { s with ordering := key } with
  | .ok l => ({ s with ordering := key, sk := some l }, none)
  | .error e => ({ s with ordering := key }, some e)

/-! ## `Stats._relativize` -/

/-- A Python float that is either finite or the `float('inf')` sentinel. -/
inductive PyFloat
  | num (q : ℚ)
  | inf
deriving DecidableEq

/-- Loop of `Stats._relativize`: for each key of `data`, a zero baseline value
maps to `float('inf')`, otherwise to `data[key]/baseline[key]`; `baseline[key]`
(and `data[key]`) are plain lookups that raise `KeyError` when absent. -/
def relativizeAux (data baseline : Dict ℚ) :
    List (String × ℚ) → Dict PyFloat → Except PyErr (Dict PyFloat)
  | [], acc => .ok acc
  | (k, _) :: rest, acc =>
    match dictGet baseline k with
    | .error e => .error e
    | .ok b =>
      if b = 0 then relativizeAux data baseline rest (dictSet acc k .inf)
      else
        match dictGet data k with
        | .error e => .error e
        | .ok dv => relativizeAux data baseline rest (dictSet acc k (.num (dv / b)))

/-- `Stats._relativize(data, baseline)`. -/
def Stats.relativize (data baseline : Dict ℚ) : Except PyErr (Dict PyFloat) :=
  relativizeAux data baseline data []

/-! ## Report formatting (`Stats.__str__`) -/

/-- Round to the nearest integer, ties to even — the rounding CPython's
fixed-point float formatting performs on the printed value. -/
def rndHalfEven (q : ℚ) : ℤ :=
  if q - ⌊q⌋ < 1 / 2 then ⌊q⌋
  else if 1 / 2 < q - ⌊q⌋ then ⌊q⌋ + 1
  else if ⌊q⌋ % 2 = 0 then ⌊q⌋ else ⌊q⌋ + 1

/-- Left-pad a digit string with zeros to the given width. -/
def padZeros (s : String) (n : ℕ) : String :=
  if s.length < n then String.mk (List.replicate (n - s.length) '0') ++ s else s

/-- Render a scaled, rounded integer with `prec` decimals. -/
def fmtFixedInt (prec : ℕ) (n : ℤ) : String :=
  let m := n.natAbs
  let sign := if n < 0 then "-" else ""
  if prec = 0 then sign ++ toString m
  else sign ++ toString (m / 10 ^ prec) ++ "." ++ padZeros (toString (m % 10 ^ prec)) prec

/-- `"{:.prec f}".format(q)`: fixed-point rendering with `prec` decimals
(no decimal point when `prec = 0`). -/
def fmtFixed (prec : ℕ) (q : ℚ) : String :=
  fmtFixedInt prec (rndHalfEven (q * (10 : ℚ) ^ prec))

/-- One formatted table row of `Stats.__str__` (the six column strings). -/
structure Row where
  ncalls : String
  tottime : String
  percall : String
  cumtime : String
  varpercall : String
  name : String
deriving DecidableEq

/-- The per-function body of the `for func in self._sk` loop in
`Stats.__str__`:

* `ncalls = "{:.0f}".format(counts[func]/nruns)`, suffixed with
  `"/{:.0f}".format(counts_nonrec[func]/nruns)` when
  `counts[func] > counts_nonrec[func]`;
* `tottime = totals[func]/nruns`, `percall = (tottime/counts[func])/nruns`,
  `cumtime = cumulated[func]/nruns`,
  `varpercall = (cumtime/counts_nonrec[func])/nruns`
  (note that `percall` and `varpercall` are divided by `nruns` twice);
* each time column is formatted as `"{:.3f}".format(value/1000)`. -/
def Stats.statsRow (s : Stats) (func : String) : Except PyErr Row := do
  let cnt ← dictGet s.function_counts func
  let q1 ← pyDiv cnt s.nruns
  let nrec ← dictGet s.function_counts_nonrec func
  let ncalls ←
    if nrec < cnt then do
      let q2 ← pyDiv nrec s.nruns
      pure (fmtFixed 0 q1 ++ "/" ++ fmtFixed 0 q2)
    else
      pure (fmtFixed 0 q1)
  let tot ← dictGet s.function_totals func
  let tottime ← pyDiv tot s.nruns
  let pc1 ← pyDiv tottime cnt
  let percall ← pyDiv pc1 s.nruns
  let cum ← dictGet s.function_cumulated_totals func
  let cumtime ← pyDiv cum s.nruns
  let vp1 ← pyDiv cumtime nrec
  let varpercall ← pyDiv vp1 s.nruns
  let t1 ← pyDiv tottime 1000
  let t2 ← pyDiv percall 1000
  let t3 ← pyDiv cumtime 1000
  let t4 ← pyDiv varpercall 1000
  .ok { ncalls := ncalls
        tottime := fmtFixed 3 t1
        percall := fmtFixed 3 t2
        cumtime := fmtFixed 3 t3
        varpercall := fmtFixed 3 t4
        name := func }

/-! ## Treemap layout (`MethodElement.add_child`) -/

/-- A percentage rectangle `(top, left, width, height)` as stored in
`MethodElement.rect` / `_free_rect`. -/
structure Rect where
  top : ℚ
  left : ℚ
  width : ℚ
  height : ℚ
deriving DecidableEq

/-- The placement arithmetic of `MethodElement.add_child` for one child,
given the current free rectangle and the child's relative share
`share = Stats._relativize(child_profile, baseline=parent_profile)['cumulated']`
(finite branch, i.e. a nonzero parent baseline; this embedding is evaluated
only at such inputs).  Returns `(child_rect, new_free_rect)`.

Mirrored exactly from the source:
* `fr_width > fr_height` branch: `ch_height = fr_height`,
  `ch_width = share / ch_height`, `fr_width = fr_width - ch_width` (a dead
  store — see below), `fr_left += ch_width`;
* otherwise symmetric with the axes exchanged;
* the code then stores `self._free_rect = (fr_top, fr_left, ch_width,
  ch_height)` — the CHILD's width and height, not the shrunken
  `fr_width`/`fr_height` it just computed. -/
def add_child_place (free : Rect) (child_cumulated parent_cumulated : ℚ) :
    Rect × Rect :=
  let share := child_cumulated / parent_cumulated
  if free.height < free.width then
    let chH := free.height
    let chW := share / chH
    (⟨free.top, free.left, chW, chH⟩, ⟨free.top, free.left + chW, chW, chH⟩)
  else
    let chW := free.width
    let chH := share / chW
    (⟨free.top, free.left, chW, chH⟩, ⟨free.top + chH, free.left, chW, chH⟩)

/-- Successive `add_child` calls for a list of children (the loop at the end
of `MethodElement.__init__`), returning the child rectangles and the final
free rectangle. -/
def placeChildren (parent_cumulated : ℚ) :
    Rect → List ℚ → List Rect × Rect
  | free, [] => ([], free)
  | free, c :: rest =>
    let r := add_child_place free c parent_cumulated
    let tail := placeChildren parent_cumulated r.2 rest
    (r.1 :: tail.1, tail.2)

/-- Total area of a list of rectangles. -/
def rectsArea (l : List Rect) : ℚ :=
  l.foldl (fun a r => a + r.width * r.height) 0

/-! ## Navigation (`CallGrind.zoom_in` / `CallGrind.zoom_out`)

The tree is embedded as a node arena (`nodes`, indexed by `ℕ`); a node keeps
its `_parent` reference as an arena index and its `_children` dict maps child
names to indices. -/

/-- One `MethodElement` as navigation sees it. -/
structure MENode where
  name : String
  parent : Option ℕ
  children : Dict ℕ
  rect : Rect
deriving DecidableEq

/-- Attribute names defined on a `MethodElement` instance: the instance
attributes assigned in `__init__` (via `self.rect = ...` also `_top`, `_left`,
`_width`, `_height`) plus the `rect` property.  There is NO attribute named
`parent` — the parent reference is stored as `_parent`. -/
def methodElementAttrs : List String :=
  ["_name", "_profile_data", "_element", "_children", "_parent",
   "_free_rect", "_stack_hash", "_top", "_left", "_width", "_height", "rect"]

/-- The attribute read `node.parent` performed by `CallGrind.zoom_out`:
Python attribute lookup succeeds only when the name is defined on the
instance or class, otherwise it raises `AttributeError`.  `parent` is not
among `methodElementAttrs`, so this always fails. -/
def getattrParent (nd : MENode) : Except PyErr (Option ℕ) :=
  if "parent" ∈ methodElementAttrs then .ok nd.parent else .error .attributeError

/-- The `CallGrind` controller state: the node arena built by `load_data`,
the index of `self._zoomed_element`, and the index of the subtree currently
mounted under `self._element`. -/
structure CallGrind where
  nodes : List MENode
  zoomed : ℕ
  mounted : ℕ
deriving DecidableEq

/-- `CallGrind.zoom_in(func_name)`: when the zoomed node has a child of that
name, unmount the zoomed node, set `self._zoomed_element` to the child and
mount it; otherwise return without doing anything. -/
def CallGrind.zoom_in (cg : CallGrind) (func_name : String) : CallGrind :=
  match cg.nodes.get? cg.zoomed with
  | none => cg
  | some nd =>
    match dictLookup nd.children func_name with
    | none => cg
    | some cid => { cg with zoomed := cid, mounted := cid }

/-- `CallGrind.zoom_out()`: the code first evaluates
`self._zoomed_element.parent` (see `getattrParent` — always an
`AttributeError`, the attribute is `_parent`); were that read to succeed it
would return at the root, and otherwise unmount the zoomed node and mount the
parent's element — without ever reassigning `self._zoomed_element`. -/
def CallGrind.zoom_out (cg : CallGrind) : CallGrind × Option PyErr :=
  match cg.nodes.get? cg.zoomed with
  | none => (cg, some .keyError)
  | some nd =>
    match getattrParent nd with
    | .error e => (cg, some e)
    | .ok none => (cg, none)
    | .ok (some p) => ({ cg with mounted := p }, none)

/-! ## Merge (`Stats._add_stat`)

`_add_stat(self, stat)` mutates `self` in place.  To make the frame effect on
the source object expressible, the two `Stats` objects live in a two-slot
store `St := Bool → Stats`; every attribute write of the Python code goes
through `wrObj` addressed at the object the source code names (always
`self`), and every read is taken from the current store.  An exception
returns the store as mutated so far, as a raised Python exception would leave
the heap. -/

/-- The two-object store: `s slf` is the destination (`self`), `s src` the
merge source (`stat`). -/
abbrev St : Type := Bool → Stats

/-- Write to one object of the store. -/
def wrObj (s : St) (o : Bool) (f : Stats → Stats) : St :=
  fun i => if i = o then f (s i) else s i

/-- One `self.<map>[f] += stat.<map>[f]` statement: read the destination
entry, read the source entry (each a `KeyError` when absent), store the sum
into the destination. -/
def bumpField (s : St) (slf src : Bool) (f : String)
    (get : Stats → Dict ℚ) (set : Stats → Dict ℚ → Stats) : St × Option PyErr :=
  match dictLookup (get (s slf)) f with
  | none => (s, some .keyError)
  | some a =>
    match dictLookup (get (s src)) f with
    | none => (s, some .keyError)
    | some b => (wrObj s slf (fun st => set st (dictSet (get st) f (a + b))), none)

/-- `if f not in self.function_counts:` — zero-initialize the four
destination maps at `f`. -/
def scalarInit (slf : Bool) (f : String) (s : St) : St :=
  if dictContains ((s slf).function_counts) f then s
  else
    wrObj s slf (fun st =>
      { st with
        function_totals := dictSet st.function_totals f 0
        function_cumulated_totals := dictSet st.function_cumulated_totals f 0
        function_counts := dictSet st.function_counts f 0
        function_counts_nonrec := dictSet st.function_counts_nonrec f 0 })

/-- The first loop of `_add_stat`, over `stat.function_totals.keys()`: when
`f not in self.function_counts`, zero-initialize the four destination maps at
`f`; then add each of the four scalar fields. -/
def addScalars (slf src : Bool) : List String → St → St × Option PyErr
  | [], s => (s, none)
  | f :: rest, s =>
    match bumpField (scalarInit slf f s) slf src f (fun st => st.function_totals)
        (fun st d => { st with function_totals := d }) with
    | (s1, some e) => (s1, some e)
    | (s1, none) =>
      match bumpField s1 slf src f (fun st => st.function_cumulated_totals)
          (fun st d => { st with function_cumulated_totals := d }) with
      | (s2, some e) => (s2, some e)
      | (s2, none) =>
        match bumpField s2 slf src f (fun st => st.function_counts)
            (fun st d => { st with function_counts := d }) with
        | (s3, some e) => (s3, some e)
        | (s3, none) =>
          match bumpField s3 slf src f (fun st => st.function_counts_nonrec)
              (fun st d => { st with function_counts_nonrec := d }) with
          | (s4, some e) => (s4, some e)
          | (s4, none) => addScalars slf src rest s4

/-- `if caller not in sc:` — install the zero edge into the dict `sc`
aliases (`self.callers[scKey]`). -/
def edgeInit (slf : Bool) (scKey : String) (scDict : Dict EdgeVals)
    (caller : String) (s : St) : St :=
  if dictContains scDict caller then s
  else
    wrObj s slf (fun st =>
      { st with callers := dictSet st.callers scKey (dictSet scDict caller zeroEdge) })

/-- The inner loop of the second (`callers`) loop of `_add_stat`, over the
edges of one source function.  `sc` is the local variable of the Python code:
it is bound ONLY inside `if f not in self.callers:` (where
`sc = self.callers[f] = {}`), so it aliases the destination edge dict of the
last source function that was absent from `self.callers` — or is unbound
(`none`), in which case the first use (`if caller not in sc`) raises
`NameError`.  Because `self.callers[sc-key]` is never rebound afterwards,
the alias is tracked by that key. -/
def addCallerEdges (slf : Bool) (sc : Option String) :
    List (String × EdgeVals) → St → St × Option PyErr
  | [], s => (s, none)
  | (caller, values) :: rest, s =>
    match sc with
    | none => (s, some .nameError)
    | some scKey =>
      match dictLookup ((s slf).callers) scKey with
      | none => (s, some .keyError)
      | some scDict =>
        match dictLookup ((edgeInit slf scKey scDict caller s) slf).callers scKey with
        | none => (edgeInit slf scKey scDict caller s, some .keyError)
        | some scDict1 =>
          match dictLookup scDict1 caller with
          | none => (edgeInit slf scKey scDict caller s, some .keyError)
          | some prev =>
            addCallerEdges slf sc rest
              (wrObj (edgeInit slf scKey scDict caller s) slf (fun st =>
                { st with callers := dictSet st.callers scKey (dictSet scDict1 caller (addEdgeVals prev values)) }))

/-- `if f not in self.callers: sc = self.callers[f] = {}` — bind `sc` (and
create the empty destination dict) only when `f` is absent from
`self.callers`. -/
def callersInit (slf : Bool) (f : String) (sc : Option String) (s : St) :
    Option String × St :=
  if dictContains ((s slf).callers) f then (sc, s)
  else (some f, wrObj s slf (fun st => { st with callers := dictSet st.callers f [] }))

/-- The second loop of `_add_stat`, over `stat.callers.items()`. -/
def addCallers (slf : Bool) : List (String × Dict EdgeVals) → Option String → St →
    St × Option PyErr
  | [], _, s => (s, none)
  | (f, cf) :: rest, sc, s =>
    match addCallerEdges slf (callersInit slf f sc s).1 cf (callersInit slf f sc s).2 with
    | (s2, none) => addCallers slf rest (callersInit slf f sc s).1 s2
    | (s2, some e) => (s2, some e)

/-- `if self._sk is not None: self.sort()` at the end of `_add_stat` — note
that `sort`'s key parameter defaults to `'standard name'`. -/
def sortStep (slf : Bool) (s : St) : St × Option PyErr :=
  match (s slf).sk with
  | none => (s, none)
  | some _ =>
    (wrObj s slf (fun _ => (Stats.sort (s slf) "standard name").1),
     (Stats.sort (s slf) "standard name").2)

/-- `self._update_top_level_call_locations(stat.callers.values())` at the end
of `_add_stat`. -/
def topLocStep (slf src : Bool) (s : St) : St :=
  wrObj s slf (fun st =>
    { st with top_level_call_locations :=
        updateTopLocs st.top_level_call_locations (dictVals ((s src).callers)) })

/-- `Stats._add_stat(self, stat)` over the two-object store: the scalar loop,
the callers loop, then `if self._sk is not None: self.sort()` (note: `sort`'s
key parameter defaults to `'standard name'`), and finally
`self._update_top_level_call_locations(stat.callers.values())`. -/
def addStat (slf src : Bool) (s : St) : St × Option PyErr :=
  match addScalars slf src (dictKeys ((s src).function_totals)) s with
  | (s1, some e) => (s1, some e)
  | (s1, none) =>
    match addCallers slf ((s1 src).callers) none s1 with
    | (s2, some e) => (s2, some e)
    | (s2, none) =>
      match sortStep slf s2 with
      | (s3, some e) => (s3, some e)
      | (s3, none) => (topLocStep slf src s3, none)

/-! ## Order instances for the comparators used by `sorted` -/

instance instTotalPairDesc : IsTotal (String × ℚ) (fun a b => b.2 ≤ a.2) :=
  ⟨fun a b => le_total b.2 a.2⟩

instance instTransPairDesc : IsTrans (String × ℚ) (fun a b => b.2 ≤ a.2) :=
  ⟨fun _ _ _ hab hbc => le_trans hbc hab⟩

instance instTotalPairAsc : IsTotal (String × ℚ) (fun a b => a.2 ≤ b.2) :=
  ⟨fun a b => le_total a.2 b.2⟩

instance instTransPairAsc : IsTrans (String × ℚ) (fun a b => a.2 ≤ b.2) :=
  ⟨fun _ _ _ hab hbc => le_trans hab hbc⟩

/-! ## Derived notions used in the theorem statements -/

/-- The ordering predicate CPython's `sorted(..., reverse=pyrev)` establishes
between adjacent sort keys: descending when `pyrev`. -/
def pairRel (pyrev : Bool) (x y : ℚ) : Prop :=
  if pyrev then y ≤ x else x ≤ y

/-- The ordering predicate `_sorted_keys` establishes between adjacent
numeric sort keys as a function of `self._reverse_order` (the code passes
`reverse=not self._reverse_order`): descending when `_reverse_order` is
false, ascending when it is true. -/
def numRel (reverse_order : Bool) (x y : ℚ) : Prop :=
  if reverse_order then x ≤ y else y ≤ x

/-- The numeric value a dict associates to a key (`0` default only as a
total-function convenience; the theorems only apply it to present keys). -/
def cntIn (d : Dict ℚ) (k : String) : ℚ :=
  (dictLookup d k).getD 0

/-- The `percall` sort quantity of a function: `total/count`. -/
def pcVal (s : Stats) (k : String) : ℚ :=
  cntIn s.function_totals k / cntIn s.function_counts k

/-- The `var percall` sort quantity of a function: `cumulated/count_nonrec`. -/
def vpVal (s : Stats) (k : String) : ℚ :=
  cntIn s.function_cumulated_totals k / cntIn s.function_counts_nonrec k

/-! ## Concrete snapshots used by the counterexample/witness theorems -/

/-- A snapshot with two profiled functions with self-times 200 ms and 300 ms
and duration 1000 ms (the spec's top-level scenario). -/
def c3Stats : Stats :=
  { nruns := 1, duration := 1000, line_counts := []
    function_totals := [("a", 200), ("b", 300)]
    function_cumulated_totals := [("a", 400), ("b", 600)]
    function_counts := [("a", 1), ("b", 1)]
    function_counts_nonrec := [("a", 1), ("b", 1)]
    callers := [("a", [("1,m:", ⟨400, 200, 1, 1⟩)]), ("b", [("2,m:", ⟨600, 300, 1, 1⟩)])]
    top_level_call_locations := ["1,m:", "2,m:"]
    ordering := "standard name", reverse_order := false, sk := none }

/-- Merge destination: already holds caller data for function `"f"`. -/
def c1A : Stats :=
  { nruns := 1, duration := 10, line_counts := []
    function_totals := [("f", 1)]
    function_cumulated_totals := [("f", 2)]
    function_counts := [("f", 3)]
    function_counts_nonrec := [("f", 3)]
    callers := [("f", [("1,m:", ⟨2, 1, 3, 3⟩)])]
    top_level_call_locations := ["1,m:"]
    ordering := "standard name", reverse_order := false, sk := none }

/-- Merge source: caller data for the same function `"f"`. -/
def c1B : Stats :=
  { nruns := 1, duration := 20, line_counts := []
    function_totals := [("f", 2)]
    function_cumulated_totals := [("f", 4)]
    function_counts := [("f", 5)]
    function_counts_nonrec := [("f", 5)]
    callers := [("f", [("1,m:", ⟨4, 2, 5, 5⟩)])]
    top_level_call_locations := ["1,m:"]
    ordering := "standard name", reverse_order := false, sk := none }

/-- Two-object store for the C1 merge: destination in slot `true`, source in
slot `false`. -/
def c1St : St := fun b => cond b c1A c1B

/-- Snapshot with one function `"g"` called from the single top-level
location `"1,mod:"`. -/
def c6Stats : Stats :=
  { nruns := 1, duration := 100, line_counts := []
    function_totals := [("g", 5)]
    function_cumulated_totals := [("g", 7)]
    function_counts := [("g", 2)]
    function_counts_nonrec := [("g", 2)]
    callers := [("g", [("1,mod:", ⟨7, 5, 2, 2⟩)])]
    top_level_call_locations := ["1,mod:"]
    ordering := "standard name", reverse_order := false, sk := none }

/-- A built two-node treemap: root `"Top"` (arena index 0) with one child
`"f"` (index 1). -/
def c7Root : MENode :=
  { name := "Top", parent := none, children := [("f", 1)], rect := ⟨0, 0, 100, 100⟩ }

def c7Child : MENode :=
  { name := "f", parent := some 0, children := [], rect := ⟨0, 0, 100, 50⟩ }

/-- Controller freshly loaded: zoomed at the root. -/
def c7CG : CallGrind := { nodes := [c7Root, c7Child], zoomed := 0, mounted := 0 }

/-- A snapshot holding a function with recorded calls but zero `count` and
zero `count_nonrec` (the data-integrity situation of §7 of the spec). -/
def c8Stats : Stats :=
  { nruns := 1, duration := 50, line_counts := []
    function_totals := [("h", 5)]
    function_cumulated_totals := [("h", 7)]
    function_counts := [("h", 0)]
    function_counts_nonrec := [("h", 0)]
    callers := [("h", [("1,m:", ⟨7, 5, 0, 0⟩)])]
    top_level_call_locations := ["1,m:"]
    ordering := "standard name", reverse_order := false, sk := none }

/-- Sort-contract witness snapshot: two functions, `"b"` with the larger
count/total/cumulated. -/
def c5Stats : Stats :=
  { nruns := 1, duration := 60, line_counts := []
    function_totals := [("b", 5), ("a", 7)]
    function_cumulated_totals := [("b", 9), ("a", 4)]
    function_counts := [("b", 2), ("a", 1)]
    function_counts_nonrec := [("b", 2), ("a", 1)]
    callers := []
    top_level_call_locations := []
    ordering := "standard name", reverse_order := false, sk := none }

/-- A two-run snapshot whose one function shows the double `nruns` division
in the `percall` column. -/
def c9Mult : Stats :=
  { nruns := 2, duration := 4000, line_counts := []
    function_totals := [("f", 2000)]
    function_cumulated_totals := [("f", 2000)]
    function_counts := [("f", 2)]
    function_counts_nonrec := [("f", 2)]
    callers := [], top_level_call_locations := []
    ordering := "standard name", reverse_order := false, sk := none }

/-- The docstring/spec scenario: `fact` with `count=101`, `count_nonrec=1`,
`total=23` ms, `cumulated=1012` ms, one run. -/
def c9Scenario : Stats :=
  { nruns := 1, duration := 1012, line_counts := []
    function_totals := [("fact", 23)]
    function_cumulated_totals := [("fact", 1012)]
    function_counts := [("fact", 101)]
    function_counts_nonrec := [("fact", 1)]
    callers := [], top_level_call_locations := []
    ordering := "standard name", reverse_order := false, sk := none }

/-- Destination for a successful merge (no overlapping caller functions). -/
def c10A : Stats :=
  { nruns := 1, duration := 10, line_counts := []
    function_totals := [("f", 1)]
    function_cumulated_totals := [("f", 2)]
    function_counts := [("f", 3)]
    function_counts_nonrec := [("f", 3)]
    callers := []
    top_level_call_locations := []
    ordering := "standard name", reverse_order := false, sk := none }

/-- Source for a successful merge: one new function with one edge. -/
def c10B : Stats :=
  { nruns := 1, duration := 20, line_counts := []
    function_totals := [("g", 2)]
    function_cumulated_totals := [("g", 4)]
    function_counts := [("g", 5)]
    function_counts_nonrec := [("g", 5)]
    callers := [("g", [("2,m:", ⟨4, 2, 5, 5⟩)])]
    top_level_call_locations := ["2,m:"]
    ordering := "standard name", reverse_order := false, sk := none }

/-- Two-object store for the C10 witness merge. -/
def c10St : St := fun b => cond b c10A c10B

/-! # Theorems -/

/-- **C1** (code_bug evidence): merging a snapshot `c1B` into `c1A`, both of
which record caller data for the same function `"f"`, raises `NameError`: the
local `sc` of `_add_stat` is only bound inside `if f not in self.callers:`,
so for an already-present function it is unbound at `if caller not in sc:`.
The scalar loop has already mutated the destination (totals `1+2`), while the
destination's caller edge is left unmerged. -/
theorem c1_merge_unbound_sc_raises :
    (addStat true false c1St).2 = some PyErr.nameError
    ∧ ((addStat true false c1St).1 true).function_totals = [("f", (1 : ℚ) + 2)]
    ∧ ((addStat true false c1St).1 true).callers = c1A.callers
    ∧ (addStat true false c1St).1 false = c1B :=
  ⟨rfl, rfl, rfl, rfl⟩

/-- **C2**: deserializing the serialized form of any snapshot
(`Stats(S.__json__())`, i.e. `ofJson ∘ toJson`) yields a snapshot that
answers every `method_profile`, `sub_calls` and `profiled_methods` query
identically to the original — the serialized record retains every field
those queries consult. -/
theorem c2_roundtrip_queries (s : Stats) :
    (∀ name chain, Stats.method_profile (Stats.ofJson (Stats.toJson s)) name chain
        = Stats.method_profile s name chain)
    ∧ (∀ chain, Stats.sub_calls (Stats.ofJson (Stats.toJson s)) chain
        = Stats.sub_calls s chain)
    ∧ Stats.profiled_methods (Stats.ofJson (Stats.toJson s))
        = Stats.profiled_methods s :=
  ⟨fun _ _ => rfl, fun _ => rfl, rfl⟩

/-- **C3** (code_bug evidence): on the spec's scenario snapshot (duration
1000 ms, self-times 200 ms and 300 ms) the top-level query
`method_profile(None)` raises `TypeError` instead of returning
`total=500, cumulated=1000`: `sum(self.function_totals)` sums the dict's
string keys. -/
theorem c3_top_level_profile_type_error :
    Stats.method_profile c3Stats none none = .error PyErr.typeError := rfl

/-- **C4** (code_bug evidence): slicing two children with finite shares
`500/1000 + 500/1000 = 1` into the free rectangle `(0,0,100,100)` yields
rectangles of total area `1`, not the free rectangle's area `10000` — the
children do not tile the rectangle (each child extent is computed as
`share/extent`, and the free rectangle is overwritten with the child's
width/height instead of the shrunken ones, as the final conjunct shows:
after both placements the free width is still `100`). -/
theorem c4_tiling_violated :
    (placeChildren 1000 ⟨0, 0, 100, 100⟩ [500, 500]).1
      = [⟨0, 0, 100, 1/200⟩, ⟨1/200, 0, 100, 1/200⟩]
    ∧ rectsArea (placeChildren 1000 ⟨0, 0, 100, 100⟩ [500, 500]).1 = 1
    ∧ (500 / 1000 + 500 / 1000 : ℚ) = 1
    ∧ rectsArea [⟨0, 0, 100, 100⟩] = 10000
    ∧ (1 : ℚ) ≠ 10000
    ∧ ((placeChildren 1000 ⟨0, 0, 100, 100⟩ [500, 500]).2).width = 100 := by
  norm_num [placeChildren, add_child_place, rectsArea]

/-- **C6** (code_bug evidence): on a snapshot whose function `"g"` has a
recorded edge at the top-level location `"1,mod:"`, `sub_calls(None)` raises
`AttributeError` (the loop reads the never-assigned `self._top_level_callers`
— the attribute is `_top_level_call_locations`) instead of returning
`{"g"}`; `sub_calls("1,mod:")` itself works; and `sub_calls_profile` raises
`TypeError` because it calls `method_profile` with the nonexistent keyword
`restrict_to_calls_from`. -/
theorem c6_sub_calls_raises :
    Stats.sub_calls c6Stats none = .error PyErr.attributeError
    ∧ Stats.sub_calls c6Stats (some "1,mod:") = .ok ["g"]
    ∧ Stats.sub_calls_profile c6Stats (some "1,mod:") = .error PyErr.typeError :=
  ⟨rfl, rfl, rfl⟩

/-- **C7** (code_bug evidence): on the two-node tree, `zoom_out()` at the
root raises `AttributeError` instead of being a no-op (the code reads
`self._zoomed_element.parent`, but `MethodElement` only defines `_parent`);
`zoom_in` to a missing child is a true no-op; and after `zoom_in("f")`,
`zoom_out()` again raises `AttributeError` and leaves `_zoomed_element` at
the child (the code never reassigns it), so the round trip does not return
the controller to the root. -/
theorem c7_navigation_raises :
    (CallGrind.zoom_out c7CG).2 = some PyErr.attributeError
    ∧ CallGrind.zoom_in c7CG "missing" = c7CG
    ∧ (CallGrind.zoom_in c7CG "f").zoomed = 1
    ∧ (CallGrind.zoom_out (CallGrind.zoom_in c7CG "f")).2 = some PyErr.attributeError
    ∧ (CallGrind.zoom_out (CallGrind.zoom_in c7CG "f")).1.zoomed = 1 :=
  ⟨rfl, rfl, rfl, rfl, rfl⟩

/-! ### Frame lemmas for the merge (`_add_stat` writes only to `self`) -/

theorem wrObj_other (s : St) (o o' : Bool) (f : Stats → Stats) (h : o' ≠ o) :
    wrObj s o f o' = s o' := by
  simp [wrObj, h]

theorem scalarInit_other (slf : Bool) (f : String) (s : St) (o : Bool) (h : o ≠ slf) :
    scalarInit slf f s o = s o := by
  unfold scalarInit
  split
  · rfl
  · exact wrObj_other _ _ _ _ h

theorem bumpField_other (s : St) (slf src : Bool) (f : String)
    (get : Stats → Dict ℚ) (set : Stats → Dict ℚ → Stats) (o : Bool) (h : o ≠ slf) :
    (bumpField s slf src f get set).1 o = s o := by
  unfold bumpField
  split
  · rfl
  · split
    · rfl
    · dsimp only
      exact wrObj_other _ _ _ _ h

theorem addScalars_other (slf src : Bool) (o : Bool) (h : o ≠ slf) :
    ∀ (l : List String) (s : St), (addScalars slf src l s).1 o = s o := by
  intro l
  induction l with
  | nil => intro s; rfl
  | cons f rest ih =>
    intro s
    rw [addScalars]
    have h0 : scalarInit slf f s o = s o := scalarInit_other slf f s o h
    have h1 := bumpField_other (scalarInit slf f s) slf src f
      (fun st => st.function_totals) (fun st d => { st with function_totals := d }) o h
    split
    next s1 e heq => rw [show s1 = (bumpField (scalarInit slf f s) slf src f
        (fun st => st.function_totals) (fun st d => { st with function_totals := d })).1
        from congrArg Prod.fst heq.symm]; rw [h1, h0]
    next s1 heq =>
      have hs1 : s1 o = s o := by
        rw [show s1 = (bumpField (scalarInit slf f s) slf src f
          (fun st => st.function_totals) (fun st d => { st with function_totals := d })).1
          from congrArg Prod.fst heq.symm, h1, h0]
      clear heq
      have h2 := bumpField_other s1 slf src f
        (fun st => st.function_cumulated_totals)
        (fun st d => { st with function_cumulated_totals := d }) o h
      split
      next s2 e heq => rw [show s2 = _ from congrArg Prod.fst heq.symm, h2, hs1]
      next s2 heq =>
        have hs2 : s2 o = s o := by
          rw [show s2 = _ from congrArg Prod.fst heq.symm, h2, hs1]
        clear heq
        have h3 := bumpField_other s2 slf src f
          (fun st => st.function_counts) (fun st d => { st with function_counts := d }) o h
        split
        next s3 e heq => rw [show s3 = _ from congrArg Prod.fst heq.symm, h3, hs2]
        next s3 heq =>
          have hs3 : s3 o = s o := by
            rw [show s3 = _ from congrArg Prod.fst heq.symm, h3, hs2]
          clear heq
          have h4 := bumpField_other s3 slf src f
            (fun st => st.function_counts_nonrec)
            (fun st d => { st with function_counts_nonrec := d }) o h
          split
          next s4 e heq => rw [show s4 = _ from congrArg Prod.fst heq.symm, h4, hs3]
          next s4 heq =>
            have hs4 : s4 o = s o := by
              rw [show s4 = _ from congrArg Prod.fst heq.symm, h4, hs3]
            rw [ih s4, hs4]

theorem edgeInit_other (slf : Bool) (scKey : String) (scDict : Dict EdgeVals)
    (caller : String) (s : St) (o : Bool) (h : o ≠ slf) :
    edgeInit slf scKey scDict caller s o = s o := by
  unfold edgeInit
  split
  · rfl
  · exact wrObj_other _ _ _ _ h

theorem addCallerEdges_other (slf : Bool) (o : Bool) (h : o ≠ slf) :
    ∀ (l : List (String × EdgeVals)) (sc : Option String) (s : St),
      (addCallerEdges slf sc l s).1 o = s o := by
  intro l
  induction l with
  | nil => intro sc s; rfl
  | cons p rest ih =>
    intro sc s
    obtain ⟨caller, values⟩ := p
    cases sc with
    | none => rfl
    | some scKey =>
      rw [addCallerEdges.eq_def]
      dsimp only
      split
      · rfl
      · split
        · show edgeInit slf scKey _ caller s o = s o
          exact edgeInit_other _ _ _ _ _ _ h
        · split
          · show edgeInit slf scKey _ caller s o = s o
            exact edgeInit_other _ _ _ _ _ _ h
          · rw [ih, wrObj_other _ _ _ _ h, edgeInit_other _ _ _ _ _ _ h]

theorem callersInit_other (slf : Bool) (f : String) (sc : Option String) (s : St)
    (o : Bool) (h : o ≠ slf) :
    (callersInit slf f sc s).2 o = s o := by
  unfold callersInit
  split
  · rfl
  · dsimp only
    exact wrObj_other _ _ _ _ h

theorem addCallers_other (slf : Bool) (o : Bool) (h : o ≠ slf) :
    ∀ (l : List (String × Dict EdgeVals)) (sc : Option String) (s : St),
      (addCallers slf l sc s).1 o = s o := by
  intro l
  induction l with
  | nil => intro sc s; rfl
  | cons p rest ih =>
    intro sc s
    obtain ⟨f, cf⟩ := p
    rw [addCallers]
    have hinit : (callersInit slf f sc s).2 o = s o := callersInit_other slf f sc s o h
    have hedges := addCallerEdges_other slf o h cf (callersInit slf f sc s).1
      (callersInit slf f sc s).2
    split
    next s2 heq =>
      rw [ih, show s2 = _ from congrArg Prod.fst heq.symm, hedges, hinit]
    next s2 e heq =>
      rw [show s2 = _ from congrArg Prod.fst heq.symm, hedges, hinit]

theorem sortStep_other (slf : Bool) (s : St) (o : Bool) (h : o ≠ slf) :
    (sortStep slf s).1 o = s o := by
  unfold sortStep
  split
  · rfl
  · dsimp only
    exact wrObj_other _ _ _ _ h

theorem topLocStep_other (slf src : Bool) (s : St) (o : Bool) (h : o ≠ slf) :
    topLocStep slf src s o = s o :=
  wrObj_other _ _ _ _ h

/-- **C10**: `_add_stat` never modifies its source object: for any two-slot
store and distinct destination/source slots, the source slot — all of its
fields: the four function-keyed maps, callers, duration, nruns, the
top-level-location set, and the sort cache — is unchanged after the merge,
whether the merge completed or stopped at an exception. -/
theorem c10_add_stat_preserves_source (s : St) (slf src : Bool) (h : src ≠ slf) :
    (addStat slf src s).1 src = s src := by
  rw [addStat]
  have h1 := addScalars_other slf src src h (dictKeys ((s src).function_totals)) s
  split
  next s1 e heq => rw [show s1 = _ from congrArg Prod.fst heq.symm, h1]
  next s1 heq =>
    have hs1 : s1 src = s src := by
      rw [show s1 = _ from congrArg Prod.fst heq.symm, h1]
    clear heq
    have h2 := addCallers_other slf src h ((s1 src).callers) none s1
    split
    next s2 e heq => rw [show s2 = _ from congrArg Prod.fst heq.symm, h2, hs1]
    next s2 heq =>
      have hs2 : s2 src = s src := by
        rw [show s2 = _ from congrArg Prod.fst heq.symm, h2, hs1]
      clear heq
      have h3 := sortStep_other slf s2 src h
      split
      next s3 e heq => rw [show s3 = _ from congrArg Prod.fst heq.symm, h3, hs2]
      next s3 heq =>
        show topLocStep slf src s3 src = s src
        rw [topLocStep_other slf src s3 src h,
          show s3 = _ from congrArg Prod.fst heq.symm, h3, hs2]

/-- Witness for C10 at a concrete successful merge (`c10B` into `c10A`). -/
theorem c10_add_stat_preserves_source_witness :
    (true : Bool) ≠ false ∧ (addStat true false c10St).1 false = c10St false :=
  ⟨by decide, c10_add_stat_preserves_source c10St true false (by decide)⟩

/-! ### Dictionary lemmas -/

theorem dictContains_eq_true_iff (d : Dict α) (k : String) :
    dictContains d k = true ↔ ∃ v, dictLookup d k = some v := by
  simp [dictContains, Option.isSome_iff_exists]

theorem dictGet_of_lookup (d : Dict α) (k : String) (v : α)
    (h : dictLookup d k = some v) : dictGet d k = .ok v := by
  simp [dictGet, h]

theorem dictContains_of_mem_keys (d : Dict α) (k : String) (h : k ∈ dictKeys d) :
    dictContains d k = true := by
  induction d with
  | nil => cases h
  | cons q rest ih =>
    obtain ⟨qk, qv⟩ := q
    by_cases hq : qk = k
    · subst hq
      simp [dictContains, dictLookup]
    · rcases List.mem_cons.mp (show k ∈ qk :: dictKeys rest from h) with rfl | h'
      · exact absurd rfl hq
      · have hrest := ih h'
        simpa [dictContains, dictLookup, hq] using hrest

theorem dictLookup_of_mem_nodup (d : Dict α) :
    ∀ p : String × α, (dictKeys d).Nodup → p ∈ d → dictLookup d p.1 = some p.2 := by
  induction d with
  | nil => intro p _ hm; cases hm
  | cons q rest ih =>
    intro p hn hm
    obtain ⟨qk, qv⟩ := q
    simp only [dictKeys, List.map_cons, List.nodup_cons] at hn
    rcases List.mem_cons.mp hm with h | h
    · subst h
      simp [dictLookup]
    · have hne : qk ≠ p.1 := fun he => hn.1 (he ▸ List.mem_map.mpr ⟨p, h, rfl⟩)
      rw [dictLookup, if_neg hne]
      exact ih p hn.2 h

theorem lookup_replace_self (d : Dict α) (k : String) (v : α)
    (hcon : dictContains d k = true) :
    dictLookup (d.map fun p => if p.1 = k then (k, v) else p) k = some v := by
  induction d with
  | nil => simp [dictContains, dictLookup] at hcon
  | cons q rest ih =>
    obtain ⟨qk, qv⟩ := q
    rw [List.map_cons]
    by_cases hq : qk = k
    · subst hq
      rw [show (if ((qk, qv) : String × α).1 = qk then (qk, v) else (qk, qv)) = (qk, v)
          from if_pos rfl]
      rw [dictLookup, if_pos rfl]
    · rw [show (if ((qk, qv) : String × α).1 = k then (k, v) else (qk, qv)) = (qk, qv)
          from if_neg hq]
      rw [dictLookup, if_neg hq]
      exact ih (by simpa [dictContains, dictLookup, hq] using hcon)

theorem lookup_append_self (d : Dict α) (k : String) (v : α)
    (hcon : dictContains d k = false) :
    dictLookup (d ++ [(k, v)]) k = some v := by
  induction d with
  | nil => simp [dictLookup]
  | cons q rest ih =>
    obtain ⟨qk, qv⟩ := q
    have hq : ¬ qk = k := by
      intro h
      subst h
      simp [dictContains, dictLookup] at hcon
    have hrest : dictContains rest k = false := by
      simpa [dictContains, dictLookup, hq] using hcon
    simp [dictLookup, hq, ih hrest]

theorem dictLookup_dictSet_self (d : Dict α) (k : String) (v : α) :
    dictLookup (dictSet d k v) k = some v := by
  unfold dictSet
  split
  next hcon => exact lookup_replace_self d k v hcon
  next hcon => exact lookup_append_self d k v (by simpa using hcon)

theorem lookup_replace_ne (d : Dict α) (k k' : String) (v : α) (h : k' ≠ k) :
    dictLookup (d.map fun p => if p.1 = k then (k, v) else p) k' = dictLookup d k' := by
  induction d with
  | nil => rfl
  | cons q rest ih =>
    obtain ⟨qk, qv⟩ := q
    rw [List.map_cons]
    by_cases hq : qk = k
    · subst hq
      rw [show (if ((qk, qv) : String × α).1 = qk then (qk, v) else (qk, qv)) = (qk, v)
          from if_pos rfl]
      rw [dictLookup, dictLookup, if_neg (Ne.symm h), if_neg (Ne.symm h)]
      exact ih
    · rw [show (if ((qk, qv) : String × α).1 = k then (k, v) else (qk, qv)) = (qk, qv)
          from if_neg hq]
      rw [dictLookup, dictLookup]
      by_cases hqk : qk = k'
      · rw [if_pos hqk, if_pos hqk]
      · rw [if_neg hqk, if_neg hqk]
        exact ih

theorem lookup_append_ne (d : Dict α) (k k' : String) (v : α) (h : k' ≠ k) :
    dictLookup (d ++ [(k, v)]) k' = dictLookup d k' := by
  induction d with
  | nil => simp [dictLookup, Ne.symm h]
  | cons q rest ih =>
    obtain ⟨qk, qv⟩ := q
    simp [dictLookup, ih]

theorem dictLookup_dictSet_ne (d : Dict α) (k k' : String) (v : α) (h : k' ≠ k) :
    dictLookup (dictSet d k v) k' = dictLookup d k' := by
  unfold dictSet
  split
  · exact lookup_replace_ne d k k' v h
  · exact lookup_append_ne d k k' v h

/-! ### Lemmas about the sort machinery -/

theorem exMap_ok_mem (f : α → Except PyErr β) :
    ∀ (l : List α) (r : List β), exMap f l = .ok r → ∀ b ∈ r, ∃ a ∈ l, f a = .ok b := by
  intro l
  induction l with
  | nil =>
    intro r hr b hb
    simp only [exMap, Except.ok.injEq] at hr
    subst hr
    cases hb
  | cons a rest ih =>
    intro r hr b hb
    rcases hfa : f a with e | b0 <;> rw [exMap, hfa] at hr
    · cases hr
    · rcases hrest : exMap f rest with e | bs <;> rw [hrest] at hr
      · cases hr
      · obtain rfl : b0 :: bs = r := by injection hr
        rcases List.mem_cons.mp hb with rfl | hbs
        · exact ⟨a, List.mem_cons_self a rest, hfa⟩
        · obtain ⟨a', ha', hfa'⟩ := ih bs hrest b hbs
          exact ⟨a', List.mem_cons_of_mem a ha', hfa'⟩

/-- Projecting the keys of a stably sorted `(key, value)` list yields a list
whose adjacent keys satisfy any relation implied by the comparator on the
pairs. -/
theorem chain_insertionSort_keys (r : String × ℚ → String × ℚ → Prop)
    [DecidableRel r] [IsTotal (String × ℚ) r] [IsTrans (String × ℚ) r]
    (kvs : Dict ℚ) (S : String → String → Prop)
    (hRS : ∀ a b : String × ℚ, a ∈ kvs → b ∈ kvs → r a b → S a.1 b.1) :
    (dictKeys (List.insertionSort r kvs)).Chain' S := by
  have hs := List.sorted_insertionSort r kvs
  have hmem : ∀ p ∈ List.insertionSort r kvs, p ∈ kvs :=
    fun p hp => (List.mem_insertionSort r).mp hp
  have hp : (List.insertionSort r kvs).Pairwise fun a b => S a.1 b.1 := by
    refine hs.imp_of_mem ?_
    intro a b ha hb hr
    exact hRS a b (hmem a ha) (hmem b hb) hr
  exact (List.pairwise_map.mpr hp).chain'

/-- The key order produced by `sorted(kvs, key=value, reverse=pyrev)` is
`pairRel pyrev`-ordered on any value function agreeing with the pairs. -/
theorem chain_sortPairs (pyrev : Bool) (kvs : Dict ℚ) (q : String → ℚ)
    (hval : ∀ p ∈ kvs, p.2 = q p.1) :
    (dictKeys (sortPairs pyrev kvs)).Chain' fun a b => pairRel pyrev (q a) (q b) := by
  cases pyrev
  · show (dictKeys (List.insertionSort (fun a b : String × ℚ => a.2 ≤ b.2) kvs)).Chain' _
    refine chain_insertionSort_keys _ kvs _ ?_
    intro a b ha hb hr
    show q a.1 ≤ q b.1
    rw [← hval a ha, ← hval b hb]
    exact hr
  · show (dictKeys (List.insertionSort (fun a b : String × ℚ => b.2 ≤ a.2) kvs)).Chain' _
    refine chain_insertionSort_keys _ kvs _ ?_
    intro a b ha hb hr
    show q b.1 ≤ q a.1
    rw [← hval a ha, ← hval b hb]
    exact hr

theorem numRel_of_pairRel_not (rev : Bool) (x y : ℚ) (h : pairRel (!rev) x y) :
    numRel rev x y := by
  cases rev <;> simpa [pairRel, numRel] using h

theorem sortKeySource_ncalls (s : Stats) (h : s.ordering = "ncalls") :
    s.sortKeySource = .ok s.function_counts := by
  unfold Stats.sortKeySource
  rw [h, if_pos rfl]

theorem sortKeySource_tottime (s : Stats) (h : s.ordering = "tottime") :
    s.sortKeySource = .ok s.function_totals := by
  unfold Stats.sortKeySource
  rw [h, if_neg (by decide), if_pos rfl]

theorem sortKeySource_percall (s : Stats) (h : s.ordering = "percall") :
    s.sortKeySource
      = exMap (percallEntry s.function_totals s.function_counts)
          (dictKeys s.function_counts) := by
  unfold Stats.sortKeySource
  rw [h, if_neg (by decide), if_neg (by decide), if_pos rfl]

theorem sortKeySource_cumtime (s : Stats) (h : s.ordering = "cumtime") :
    s.sortKeySource = .ok s.function_cumulated_totals := by
  unfold Stats.sortKeySource
  rw [h, if_neg (by decide), if_neg (by decide), if_neg (by decide), if_pos rfl]

theorem sortKeySource_varpercall (s : Stats) (h : s.ordering = "var percall") :
    s.sortKeySource
      = exMap (percallEntry s.function_cumulated_totals s.function_counts_nonrec)
          (dictKeys s.function_counts_nonrec) := by
  unfold Stats.sortKeySource
  rw [h, if_neg (by decide), if_neg (by decide), if_neg (by decide),
    if_neg (by decide), if_pos rfl]

theorem sorted_keys_std (s : Stats) (h : s.ordering = "standard name") :
    s.sorted_keys
      = .ok (List.insertionSort (fun a b : String => a ≤ b) (dictKeys s.function_totals)) := by
  unfold Stats.sorted_keys
  rw [h, if_pos rfl]

theorem sorted_keys_nonstd (s : Stats) (kv : Dict ℚ)
    (h1 : s.ordering ≠ "standard name") (h2 : s.sortKeySource = .ok kv) :
    s.sorted_keys = .ok (dictKeys (sortPairs (!s.reverse_order) kv)) := by
  unfold Stats.sorted_keys
  rw [if_neg h1, h2]

theorem sorted_keys_nonstd_err (s : Stats) (e : PyErr)
    (h1 : s.ordering ≠ "standard name") (h2 : s.sortKeySource = .error e) :
    s.sorted_keys = .error e := by
  unfold Stats.sorted_keys
  rw [if_neg h1, h2]

theorem dictGet_ok_iff (d : Dict α) (k : String) (v : α) :
    dictGet d k = .ok v ↔ dictLookup d k = some v := by
  unfold dictGet
  rcases h : dictLookup d k with _ | w
  · simp
  · simp

theorem percallEntry_ok_inv (num den : Dict ℚ) (k : String) (p : String × ℚ)
    (h : percallEntry num den k = .ok p) :
    p.1 = k ∧ p.2 = cntIn num k / cntIn den k := by
  rcases h1 : dictGet num k with e | t
  · simp [percallEntry, h1] at h
  · rcases h2 : dictGet den k with e | c
    · simp [percallEntry, h1, h2] at h
    · rcases h3 : pyDiv t c with e | q
      · simp [percallEntry, h1, h2, h3] at h
      · have hp : (k, q) = p := by simpa [percallEntry, h1, h2, h3] using h
        subst hp
        have hlt : dictLookup num k = some t := (dictGet_ok_iff num k t).mp h1
        have hlc : dictLookup den k = some c := (dictGet_ok_iff den k c).mp h2
        have hq : q = t / c := by
          unfold pyDiv at h3
          split at h3
          · cases h3
          · injection h3 with h3
            rw [h3]
        refine ⟨rfl, ?_⟩
        show q = cntIn num k / cntIn den k
        rw [hq]
        simp [cntIn, hlt, hlc]

/-- **C5**: the sort contract of `_sorted_keys`.  With the function maps
having unique keys (Python dicts guarantee this):
1. `sort("ncalls")` succeeds, and every adjacent pair of the cached order
   satisfies the chosen ordering predicate on `count` (descending when
   `_reverse_order` is unset, ascending when set — `numRel`);
2. `sort("standard name")` caches the ascending lexicographic order of the
   function identities for EITHER value of the reverse flag;
3. the remaining numeric keys — `tottime`, `cumtime`, `percall`,
   `var percall` — order adjacent entries by the same `numRel` convention on
   their respective quantities (`percall = total/count`,
   `var percall = cumulated/count_nonrec`). -/
theorem c5_sort_contract (s : Stats)
    (hnc : (dictKeys s.function_counts).Nodup)
    (hnt : (dictKeys s.function_totals).Nodup)
    (hncu : (dictKeys s.function_cumulated_totals).Nodup) :
    ((Stats.sort s "ncalls").2 = none
      ∧ ∀ l, ((Stats.sort s "ncalls").1).sk = some l →
          l.Chain' fun a b =>
            numRel s.reverse_order (cntIn s.function_counts a) (cntIn s.function_counts b))
    ∧ (∀ rev : Bool,
        (Stats.sort { s with reverse_order := rev } "standard name").1.sk
          = some (List.insertionSort (fun a b : String => a ≤ b) (dictKeys s.function_totals))
        ∧ ∀ l, (Stats.sort { s with reverse_order := rev } "standard name").1.sk = some l →
            l.Chain' fun a b : String => a ≤ b)
    ∧ ((Stats.sort s "tottime").2 = none
      ∧ ∀ l, ((Stats.sort s "tottime").1).sk = some l →
          l.Chain' fun a b =>
            numRel s.reverse_order (cntIn s.function_totals a) (cntIn s.function_totals b))
    ∧ ((Stats.sort s "cumtime").2 = none
      ∧ ∀ l, ((Stats.sort s "cumtime").1).sk = some l →
          l.Chain' fun a b =>
            numRel s.reverse_order (cntIn s.function_cumulated_totals a)
              (cntIn s.function_cumulated_totals b))
    ∧ (∀ l, Stats.sorted_keys { s with ordering := "percall" } = .ok l →
        l.Chain' fun a b => numRel s.reverse_order (pcVal s a) (pcVal s b))
    ∧ (∀ l, Stats.sorted_keys { s with ordering := "var percall" } = .ok l →
        l.Chain' fun a b => numRel s.reverse_order (vpVal s a) (vpVal s b)) := by
  have hvalC : ∀ p ∈ s.function_counts, p.2 = cntIn s.function_counts p.1 :=
    fun p hp => by simp [cntIn, dictLookup_of_mem_nodup _ p hnc hp]
  have hvalT : ∀ p ∈ s.function_totals, p.2 = cntIn s.function_totals p.1 :=
    fun p hp => by simp [cntIn, dictLookup_of_mem_nodup _ p hnt hp]
  have hvalCu : ∀ p ∈ s.function_cumulated_totals,
      p.2 = cntIn s.function_cumulated_totals p.1 :=
    fun p hp => by simp [cntIn, dictLookup_of_mem_nodup _ p hncu hp]
  refine ⟨?_, ?_, ?_, ?_, ?_, ?_⟩
  · -- ncalls
    have h1 : Stats.sorted_keys { s with ordering := "ncalls" }
        = .ok (dictKeys (sortPairs (!s.reverse_order) s.function_counts)) :=
      sorted_keys_nonstd { s with ordering := "ncalls" } s.function_counts
        (by exact (by decide : ("ncalls" : String) ≠ "standard name"))
        (sortKeySource_ncalls _ rfl)
    constructor
    · unfold Stats.sort
      rw [h1]
    · intro l hl
      unfold Stats.sort at hl
      rw [h1] at hl
      dsimp only at hl
      injection hl with hl
      subst hl
      refine List.Chain'.imp ?_
        (chain_sortPairs (!s.reverse_order) s.function_counts (cntIn s.function_counts) hvalC)
      intro a b hab
      exact numRel_of_pairRel_not _ _ _ hab
  · -- standard name
    intro rev
    have h2 : Stats.sorted_keys
          { { s with reverse_order := rev } with ordering := "standard name" }
        = .ok (List.insertionSort (fun a b : String => a ≤ b) (dictKeys s.function_totals)) :=
      sorted_keys_std _ rfl
    constructor
    · unfold Stats.sort
      rw [h2]
    · intro l hl
      unfold Stats.sort at hl
      rw [h2] at hl
      dsimp only at hl
      injection hl with hl
      subst hl
      exact List.Pairwise.chain'
        (List.sorted_insertionSort (fun a b : String => a ≤ b) (dictKeys s.function_totals))
  · -- tottime
    have h3 : Stats.sorted_keys { s with ordering := "tottime" }
        = .ok (dictKeys (sortPairs (!s.reverse_order) s.function_totals)) :=
      sorted_keys_nonstd { s with ordering := "tottime" } s.function_totals
        (by exact (by decide : ("tottime" : String) ≠ "standard name"))
        (sortKeySource_tottime _ rfl)
    constructor
    · unfold Stats.sort
      rw [h3]
    · intro l hl
      unfold Stats.sort at hl
      rw [h3] at hl
      dsimp only at hl
      injection hl with hl
      subst hl
      refine List.Chain'.imp ?_
        (chain_sortPairs (!s.reverse_order) s.function_totals (cntIn s.function_totals) hvalT)
      intro a b hab
      exact numRel_of_pairRel_not _ _ _ hab
  · -- cumtime
    have h4 : Stats.sorted_keys { s with ordering := "cumtime" }
        = .ok (dictKeys (sortPairs (!s.reverse_order) s.function_cumulated_totals)) :=
      sorted_keys_nonstd { s with ordering := "cumtime" } s.function_cumulated_totals
        (by exact (by decide : ("cumtime" : String) ≠ "standard name"))
        (sortKeySource_cumtime _ rfl)
    constructor
    · unfold Stats.sort
      rw [h4]
    · intro l hl
      unfold Stats.sort at hl
      rw [h4] at hl
      dsimp only at hl
      injection hl with hl
      subst hl
      refine List.Chain'.imp ?_
        (chain_sortPairs (!s.reverse_order) s.function_cumulated_totals
          (cntIn s.function_cumulated_totals) hvalCu)
      intro a b hab
      exact numRel_of_pairRel_not _ _ _ hab
  · -- percall
    intro l hl
    have hns : ({ s with ordering := "percall" } : Stats).ordering ≠ "standard name" := by
      exact (by decide : ("percall" : String) ≠ "standard name")
    rcases hex : exMap (percallEntry s.function_totals s.function_counts)
        (dictKeys s.function_counts) with e | kvs
    · rw [sorted_keys_nonstd_err _ e hns ((sortKeySource_percall _ rfl).trans hex)] at hl
      cases hl
    · rw [sorted_keys_nonstd _ kvs hns ((sortKeySource_percall _ rfl).trans hex)] at hl
      injection hl with hl
      subst hl
      refine List.Chain'.imp ?_ (chain_sortPairs (!s.reverse_order) kvs (pcVal s) ?_)
      · intro a b hab
        exact numRel_of_pairRel_not _ _ _ hab
      · intro p hp
        obtain ⟨a, _, hpa⟩ := exMap_ok_mem _ _ kvs hex p hp
        obtain ⟨hk, hv⟩ := percallEntry_ok_inv _ _ a p hpa
        rw [hv, hk]
        rfl
  · -- var percall
    intro l hl
    have hns : ({ s with ordering := "var percall" } : Stats).ordering ≠ "standard name" := by
      exact (by decide : ("var percall" : String) ≠ "standard name")
    rcases hex : exMap (percallEntry s.function_cumulated_totals s.function_counts_nonrec)
        (dictKeys s.function_counts_nonrec) with e | kvs
    · rw [sorted_keys_nonstd_err _ e hns ((sortKeySource_varpercall _ rfl).trans hex)] at hl
      cases hl
    · rw [sorted_keys_nonstd _ kvs hns ((sortKeySource_varpercall _ rfl).trans hex)] at hl
      injection hl with hl
      subst hl
      refine List.Chain'.imp ?_ (chain_sortPairs (!s.reverse_order) kvs (vpVal s) ?_)
      · intro a b hab
        exact numRel_of_pairRel_not _ _ _ hab
      · intro p hp
        obtain ⟨a, _, hpa⟩ := exMap_ok_mem _ _ kvs hex p hp
        obtain ⟨hk, hv⟩ := percallEntry_ok_inv _ _ a p hpa
        rw [hv, hk]
        rfl

/-- Witness for C5: the sort contract applied to the concrete snapshot
`c5Stats`. -/
theorem c5_sort_contract_witness :
    ((dictKeys c5Stats.function_counts).Nodup
      ∧ (dictKeys c5Stats.function_totals).Nodup
      ∧ (dictKeys c5Stats.function_cumulated_totals).Nodup)
    ∧ (Stats.sort c5Stats "ncalls").2 = none :=
  ⟨⟨by decide, by decide, by decide⟩,
    (c5_sort_contract c5Stats (by decide) (by decide) (by decide)).1.1⟩

/-! ### Division-error lemmas -/

/-- The `percall`-style key list raises `ZeroDivisionError` as soon as some
iterated function has a zero denominator entry (all numerator entries being
present, so no `KeyError` preempts it). -/
theorem exMap_percall_zero (num den : Dict ℚ) :
    ∀ l : List String,
      (∀ k ∈ l, dictContains num k = true ∧ dictContains den k = true) →
      (∃ k ∈ l, dictLookup den k = some 0) →
      exMap (percallEntry num den) l = .error .zeroDivisionError := by
  intro l
  induction l with
  | nil =>
    intro _ hz
    obtain ⟨k, hk, _⟩ := hz
    cases hk
  | cons a rest ih =>
    intro hp hz
    obtain ⟨ht, hd⟩ := hp a (List.mem_cons_self a rest)
    obtain ⟨t, hlt⟩ := (dictContains_eq_true_iff _ _).mp ht
    obtain ⟨c, hlc⟩ := (dictContains_eq_true_iff _ _).mp hd
    by_cases hc0 : c = 0
    · have hhead : percallEntry num den a = .error .zeroDivisionError := by
        simp [percallEntry, dictGet_of_lookup _ _ _ hlt, dictGet_of_lookup _ _ _ hlc,
          pyDiv, hc0]
      rw [exMap, hhead]
    · have hhead : percallEntry num den a = .ok (a, t / c) := by
        simp [percallEntry, dictGet_of_lookup _ _ _ hlt, dictGet_of_lookup _ _ _ hlc,
          pyDiv, hc0]
      have hrest : ∃ k ∈ rest, dictLookup den k = some 0 := by
        obtain ⟨k, hk, hk0⟩ := hz
        rcases List.mem_cons.mp hk with rfl | hkr
        · rw [hlc] at hk0
          exact absurd (Option.some.inj hk0) hc0
        · exact ⟨k, hkr, hk0⟩
      rw [exMap, hhead, ih (fun k hk => hp k (List.mem_cons_of_mem a hk)) hrest]

/-- The `_relativize` loop never raises when every data key is present in the
baseline, and it maps every zero-baseline key to the `inf` sentinel. -/
theorem relativizeAux_ok (data baseline : Dict ℚ) :
    ∀ (it : List (String × ℚ)) (acc : Dict PyFloat),
      (∀ p ∈ it, dictContains baseline p.1 = true ∧ dictContains data p.1 = true) →
      ∃ r, relativizeAux data baseline it acc = .ok r
        ∧ (∀ k, k ∈ dictKeys it → dictLookup baseline k = some 0 →
            dictLookup r k = some PyFloat.inf)
        ∧ (∀ k, k ∉ dictKeys it → dictLookup r k = dictLookup acc k) := by
  intro it
  induction it with
  | nil =>
    intro acc _
    exact ⟨acc, rfl, fun k hk _ => absurd hk (List.not_mem_nil k), fun k _ => rfl⟩
  | cons p rest ih =>
    intro acc hp
    obtain ⟨k0, v0⟩ := p
    obtain ⟨hb, hdta⟩ := hp (k0, v0) (List.mem_cons_self _ _)
    obtain ⟨b, hlb⟩ := (dictContains_eq_true_iff _ _).mp hb
    have hptail : ∀ p ∈ rest, dictContains baseline p.1 = true ∧ dictContains data p.1 = true :=
      fun p hp' => hp p (List.mem_cons_of_mem _ hp')
    by_cases hb0 : b = 0
    · subst hb0
      obtain ⟨r, hr, h1, h2⟩ := ih (dictSet acc k0 .inf) hptail
      have hstep : relativizeAux data baseline ((k0, v0) :: rest) acc
          = relativizeAux data baseline rest (dictSet acc k0 .inf) := by
        simp [relativizeAux, dictGet_of_lookup _ _ _ hlb]
      refine ⟨r, hstep.trans hr, ?_, ?_⟩
      · intro k hk hk0
        by_cases hkk : k ∈ dictKeys rest
        · exact h1 k hkk hk0
        · have hkeq : k = k0 := by
            rcases (by simpa [dictKeys] using hk : k = k0 ∨ k ∈ List.map Prod.fst rest) with h | h
            · exact h
            · exact absurd h hkk
          subst hkeq
          rw [h2 k hkk, dictLookup_dictSet_self]
      · intro k hk
        have hks : k ∉ k0 :: dictKeys rest := hk
        have hk0 : k ≠ k0 := fun he => hks (by rw [he]; exact List.mem_cons_self _ _)
        have hkr : k ∉ dictKeys rest := fun he => hks (List.mem_cons_of_mem _ he)
        rw [h2 k hkr, dictLookup_dictSet_ne _ _ _ _ hk0]
    · obtain ⟨dv, hld⟩ := (dictContains_eq_true_iff _ _).mp hdta
      obtain ⟨r, hr, h1, h2⟩ := ih (dictSet acc k0 (.num (dv / b))) hptail
      have hstep : relativizeAux data baseline ((k0, v0) :: rest) acc
          = relativizeAux data baseline rest (dictSet acc k0 (.num (dv / b))) := by
        simp [relativizeAux, dictGet_of_lookup _ _ _ hlb, dictGet_of_lookup _ _ _ hld, hb0]
      refine ⟨r, hstep.trans hr, ?_, ?_⟩
      · intro k hk hk0
        by_cases hkk : k ∈ dictKeys rest
        · exact h1 k hkk hk0
        · have hkeq : k = k0 := by
            rcases (by simpa [dictKeys] using hk : k = k0 ∨ k ∈ List.map Prod.fst rest) with h | h
            · exact h
            · exact absurd h hkk
          subst hkeq
          rw [hlb] at hk0
          exact absurd (Option.some.inj hk0) hb0
      · intro k hk
        have hks : k ∉ k0 :: dictKeys rest := hk
        have hk0 : k ≠ k0 := fun he => hks (by rw [he]; exact List.mem_cons_self _ _)
        have hkr : k ∉ dictKeys rest := fun he => hks (List.mem_cons_of_mem _ he)
        rw [h2 k hkr, dictLookup_dictSet_ne _ _ _ _ hk0]

/-- **C8**: sort-key derivation and `_relativize` part ways on zero
denominators.  When the snapshot's maps are aligned and some function has a
zero `count` (resp. zero `count_nonrec`), `_sorted_keys` under `percall`
(resp. `var percall`) raises `ZeroDivisionError` — never coercing the ratio —
while `_relativize` completes without raising and maps every zero-baseline
key to the positive-infinity sentinel. -/
theorem c8_division_errors (s : Stats) (data baseline : Dict ℚ)
    (hp1 : ∀ k ∈ dictKeys s.function_counts, dictContains s.function_totals k = true)
    (hz1 : ∃ k ∈ dictKeys s.function_counts, dictLookup s.function_counts k = some 0)
    (hp2 : ∀ k ∈ dictKeys s.function_counts_nonrec,
      dictContains s.function_cumulated_totals k = true)
    (hz2 : ∃ k ∈ dictKeys s.function_counts_nonrec,
      dictLookup s.function_counts_nonrec k = some 0)
    (hbase : ∀ k ∈ dictKeys data, dictContains baseline k = true) :
    Stats.sorted_keys { s with ordering := "percall" } = .error .zeroDivisionError
    ∧ Stats.sorted_keys { s with ordering := "var percall" } = .error .zeroDivisionError
    ∧ ∃ r, Stats.relativize data baseline = .ok r
        ∧ ∀ k, k ∈ dictKeys data → dictLookup baseline k = some 0 →
            dictLookup r k = some PyFloat.inf := by
  refine ⟨?_, ?_, ?_⟩
  · have hex : exMap (percallEntry s.function_totals s.function_counts)
        (dictKeys s.function_counts) = .error .zeroDivisionError :=
      exMap_percall_zero _ _ _
        (fun k hk => ⟨hp1 k hk, dictContains_of_mem_keys _ k hk⟩) hz1
    exact sorted_keys_nonstd_err _ _
      (by exact (by decide : ("percall" : String) ≠ "standard name"))
      ((sortKeySource_percall _ rfl).trans hex)
  · have hex : exMap (percallEntry s.function_cumulated_totals s.function_counts_nonrec)
        (dictKeys s.function_counts_nonrec) = .error .zeroDivisionError :=
      exMap_percall_zero _ _ _
        (fun k hk => ⟨hp2 k hk, dictContains_of_mem_keys _ k hk⟩) hz2
    exact sorted_keys_nonstd_err _ _
      (by exact (by decide : ("var percall" : String) ≠ "standard name"))
      ((sortKeySource_varpercall _ rfl).trans hex)
  · obtain ⟨r, hr, h1, _⟩ := relativizeAux_ok data baseline data []
      (fun p hp => ⟨hbase p.1 (List.mem_map.mpr ⟨p, hp, rfl⟩),
        dictContains_of_mem_keys _ p.1 (List.mem_map.mpr ⟨p, hp, rfl⟩)⟩)
    exact ⟨r, hr, h1⟩

/-- Witness for C8 at `c8Stats` (zero counts for `"h"`) and the concrete
`_relativize` inputs `{"x": 3}` over baseline `{"x": 0}`. -/
theorem c8_division_errors_witness :
    ((∀ k ∈ dictKeys c8Stats.function_counts,
        dictContains c8Stats.function_totals k = true)
      ∧ (∃ k ∈ dictKeys c8Stats.function_counts,
        dictLookup c8Stats.function_counts k = some 0))
    ∧ Stats.sorted_keys { c8Stats with ordering := "percall" }
        = .error .zeroDivisionError :=
  ⟨⟨by decide, by decide⟩,
    (c8_division_errors c8Stats [("x", 3)] [("x", 0)] (by decide) (by decide)
      (by decide) (by decide) (by decide)).1⟩

/-! ### Row-formatting lemmas -/

theorem exceptBind_ok {α β : Type} (a : α) (f : α → Except PyErr β) :
    (Except.ok a : Except PyErr α) >>= f = f a := rfl

theorem pyDiv_ok (a b : ℚ) (h : b ≠ 0) : pyDiv a b = .ok (a / b) := by
  unfold pyDiv
  rw [if_neg h]

/-- Evaluate `fmtFixed` once the scaled value's floor is known and the value
is not at (or above) the rounding midpoint. -/
theorem fmtFixed_eval (prec : ℕ) (q : ℚ) (n : ℤ)
    (hf : ⌊q * (10 : ℚ) ^ prec⌋ = n) (hr : q * (10 : ℚ) ^ prec - n < 1 / 2) :
    fmtFixed prec q = fmtFixedInt prec n := by
  rw [fmtFixed, rndHalfEven, hf, if_pos hr]

/-- **C9** (counterexample): on a TWO-run snapshot with `count=2`,
`total=2000` ms, the rendered `percall` column is `"0.250"` — the code
divides the per-call average by `nruns` twice — whereas the claim's formula
(`percall = total/count`, divided once by `nruns` and by 1000) renders
`"0.500"`. -/
theorem c9_percall_counterexample :
    Stats.statsRow c9Mult "f" = .ok
      { ncalls := "1", tottime := "1.000", percall := "0.250",
        cumtime := "1.000", varpercall := "0.250", name := "f" }
    ∧ fmtFixed 3 (2000 / 2 / 2 / 1000) = "0.500"
    ∧ ("0.250" : String) ≠ "0.500" := by
  have f1 : fmtFixed 0 (1 : ℚ) = "1" :=
    (fmtFixed_eval 0 1 1 (by rw [Int.floor_eq_iff] <;> norm_num) (by norm_num)).trans
      (by decide)
  have f2 : fmtFixed 3 (1 : ℚ) = "1.000" :=
    (fmtFixed_eval 3 1 1000 (by rw [Int.floor_eq_iff] <;> norm_num) (by norm_num)).trans
      (by decide)
  have f3 : fmtFixed 3 ((1 : ℚ) / 4) = "0.250" :=
    (fmtFixed_eval 3 (1 / 4) 250 (by rw [Int.floor_eq_iff] <;> norm_num)
      (by norm_num)).trans (by decide)
  have f4 : fmtFixed 3 ((1 : ℚ) / 2) = "0.500" :=
    (fmtFixed_eval 3 (1 / 2) 500 (by rw [Int.floor_eq_iff] <;> norm_num)
      (by norm_num)).trans (by decide)
  refine ⟨?_, ?_, by decide⟩
  · norm_num [Stats.statsRow, c9Mult, dictLookup, dictGet, pyDiv, exceptBind_ok,
      f1, f2, f3]
  · norm_num [f4]

/-- **C9** (amended): each report row renders `ncalls` as `count/nruns`
rounded to an integer (suffixed with `count_nonrec/nruns` exactly when
`count > count_nonrec`), `tottime` and `cumtime` as the quantity divided by
`nruns` and by 1000 at 3 decimals — but `percall` and `var percall` are
divided by `nruns` TWICE: `total/nruns/count/nruns/1000` and
`cumulated/nruns/count_nonrec/nruns/1000` (for `nruns = 1`, as in the spec's
scenario, this coincides with the claim). -/
theorem c9_row_format (s : Stats) (func : String) (cnt nrec tot cum : ℚ)
    (h1 : dictLookup s.function_counts func = some cnt)
    (h2 : dictLookup s.function_counts_nonrec func = some nrec)
    (h3 : dictLookup s.function_totals func = some tot)
    (h4 : dictLookup s.function_cumulated_totals func = some cum)
    (hn : s.nruns ≠ 0) (hc : cnt ≠ 0) (hr : nrec ≠ 0) :
    Stats.statsRow s func = .ok
      { ncalls := if nrec < cnt
          then fmtFixed 0 (cnt / s.nruns) ++ "/" ++ fmtFixed 0 (nrec / s.nruns)
          else fmtFixed 0 (cnt / s.nruns)
        tottime := fmtFixed 3 (tot / s.nruns / 1000)
        percall := fmtFixed 3 (tot / s.nruns / cnt / s.nruns / 1000)
        cumtime := fmtFixed 3 (cum / s.nruns / 1000)
        varpercall := fmtFixed 3 (cum / s.nruns / nrec / s.nruns / 1000)
        name := func } := by
  have h1000 : (1000 : ℚ) ≠ 0 := by norm_num
  by_cases hlt : nrec < cnt <;>
    simp [Stats.statsRow, dictGet_of_lookup _ _ _ h1, dictGet_of_lookup _ _ _ h2,
      dictGet_of_lookup _ _ _ h3, dictGet_of_lookup _ _ _ h4,
      pyDiv_ok _ _ hn, pyDiv_ok _ _ hc, pyDiv_ok _ _ hr, pyDiv_ok _ _ h1000,
      exceptBind_ok, hlt]

/-- Witness for C9's amended row format: the spec's scenario (`fact`,
`count=101`, `count_nonrec=1`, `total=23` ms, `cumulated=1012` ms, one run)
renders `ncalls="101/1"`, `tottime="0.023"`, `cumtime="1.012"`. -/
theorem c9_row_format_witness :
    Stats.statsRow c9Scenario "fact" = .ok
      { ncalls := "101/1", tottime := "0.023", percall := "0.000",
        cumtime := "1.012", varpercall := "1.012", name := "fact" } := by
  have h := c9_row_format c9Scenario "fact" 101 1 23 1012 rfl rfl rfl rfl
    (by norm_num [c9Scenario]) (by norm_num) (by norm_num)
  rw [h]
  have f1 : fmtFixed 0 (101 : ℚ) = "101" :=
    (fmtFixed_eval 0 101 101 (by rw [Int.floor_eq_iff] <;> norm_num)
      (by norm_num)).trans (by decide)
  have f2 : fmtFixed 0 (1 : ℚ) = "1" :=
    (fmtFixed_eval 0 1 1 (by rw [Int.floor_eq_iff] <;> norm_num) (by norm_num)).trans
      (by decide)
  have f3 : fmtFixed 3 ((23 : ℚ) / 1000) = "0.023" :=
    (fmtFixed_eval 3 (23 / 1000) 23 (by rw [Int.floor_eq_iff] <;> norm_num)
      (by norm_num)).trans (by decide)
  have f4 : fmtFixed 3 ((23 : ℚ) / 101000) = "0.000" :=
    (fmtFixed_eval 3 (23 / 101000) 0 (by rw [Int.floor_eq_iff] <;> norm_num)
      (by norm_num)).trans (by decide)
  have f5 : fmtFixed 3 ((253 : ℚ) / 250) = "1.012" :=
    (fmtFixed_eval 3 (253 / 250) 1012 (by rw [Int.floor_eq_iff] <;> norm_num)
      (by norm_num)).trans (by decide)
  norm_num [c9Scenario, f1, f2, f3, f4, f5]
  decide

end BrythonProfile
